import Mathlib

/-!
Shallow embedding of the bank-dashboard transaction pipeline
(io_utils.py, cleaning.py, classify.py) and proofs of the specified
properties.

Modelling conventions:
* pandas tables are lists of typed row structures; a missing (NaN/None)
  cell is an Option that is none.
* Python floats are modelled as exact rationals (Rat); round(x, 2) is
  modelled as exact round-half-to-even on cents.  Binary-float rounding
  artifacts are outside the model.
* Python str is modelled as Lean String; character classes (whitespace,
  digits, word characters, lower-casing, printability) are modelled at
  ASCII granularity, which is the range exercised by the pipeline.
* datetime values are modelled as whole days (Int, days since 1970-01-01);
  pd.to_datetime string parsing is an explicit parser parameter.
-/

namespace BankPipeline

/-- ASCII model of the Python whitespace class (str.strip, regex \s). -/
def pyIsSpace (c : Char) : Bool :=
  c == ' ' || c == '\t' || c == '\n' || c == '\r' || c == '\x0b' || c == '\x0c'

/-- Drop matching characters from both ends of a list (Python str.strip with a char set). -/
def stripEnds (p : Char → Bool) (s : List Char) : List Char :=
  ((s.dropWhile p).reverse.dropWhile p).reverse

/-- Strip leading and trailing whitespace (Python str.strip()). -/
def pyStrip (s : List Char) : List Char :=
  stripEnds pyIsSpace s

/-- Helper for collapseWs: the Bool records whether we are inside a whitespace run. -/
def collapseWsAux : Bool → List Char → List Char
  | _, [] => []
  | inRun, c :: t =>
    if pyIsSpace c then
      if inRun then collapseWsAux true t else ' ' :: collapseWsAux true t
    else c :: collapseWsAux false t

/-- Replace every whitespace run by a single space (re.sub of the whitespace-run pattern). -/
def collapseWs (s : List Char) : List Char :=
  collapseWsAux false s

/-- Lower-case one character; ASCII model of Python str.lower applied pointwise. -/
def lowerChar (c : Char) : Char :=
  if 65 ≤ c.toNat ∧ c.toNat ≤ 90 then Char.ofNat (c.toNat + 32) else c

/-- Lower-case a character list. -/
def lowerList (s : List Char) : List Char :=
  s.map lowerChar

/-- Lower-case a string (Python str.lower, ASCII model). -/
def pyLower (s : String) : String :=
  ⟨lowerList s.data⟩

/-- Substring containment on character lists (Python operator in, on the pattern pat). -/
def containsSubList (pat : List Char) : List Char → Bool
  | [] => pat.isEmpty
  | c :: t => pat.isPrefixOf (c :: t) || containsSubList pat t

/-- Python substring test: pat occurs inside hay. -/
def containsSub (hay pat : String) : Bool :=
  containsSubList pat.data hay.data

/-- Word characters for the regex classes (ASCII model of backslash-w). -/
def isWordChar (c : Char) : Bool :=
  c.isAlphanum || c == '_'

/-- Regex word boundary immediately before position i of s (every trailing
pattern of the cleaner starts with a word character, so the boundary holds
iff the previous character is absent or not a word character). -/
def boundaryAt (s : List Char) (i : Nat) : Bool :=
  i == 0 || !(isWordChar (s.getD (i - 1) ' '))

/-- Consume one optional leading character matching p (regex single optional element). -/
def consumeOpt (p : Char → Bool) : List Char → List Char
  | [] => []
  | c :: t => if p c then t else c :: t

/-- Consume a fixed lower-case literal case-insensitively, returning the rest. -/
def stripLiteralCI : List Char → List Char → Option (List Char)
  | [], l => some l
  | _, [] => none
  | w :: ws, c :: t => if lowerChar c == w then stripLiteralCI ws t else none

/-- Matcher for the first trailing pattern of cleaning.py: the literal ref,
an optional dot, an optional single whitespace, an optional hash sign, then
one or more digits running to the end of the string (case-insensitive). -/
def matchRefEnd (l : List Char) : Bool :=
  match stripLiteralCI ['r', 'e', 'f'] l with
  | none => false
  | some rest =>
    let rest := consumeOpt (· == '.') rest
    let rest := consumeOpt pyIsSpace rest
    let rest := consumeOpt (· == '#') rest
    !rest.isEmpty && rest.all Char.isDigit

/-- Matcher for the second trailing pattern: the literal transaction, an
optional single whitespace, an optional hash sign, then digits to the end. -/
def matchTransactionEnd (l : List Char) : Bool :=
  match stripLiteralCI ['t', 'r', 'a', 'n', 's', 'a', 'c', 't', 'i', 'o', 'n'] l with
  | none => false
  | some rest =>
    let rest := consumeOpt pyIsSpace rest
    let rest := consumeOpt (· == '#') rest
    !rest.isEmpty && rest.all Char.isDigit

/-- Matcher for the third trailing pattern: a bare run of at least four digits to the end. -/
def matchDigitsEnd (l : List Char) : Bool :=
  decide (4 ≤ l.length) && l.all Char.isDigit

/-- One re.sub pass of an end-anchored pattern: remove the leftmost
word-boundary-aligned suffix accepted by the matcher m (at most one match
since the patterns are anchored at the end of the string). -/
def subTrailing (m : List Char → Bool) (s : List Char) : List Char :=
  match (List.range s.length).find? (fun i => boundaryAt s i && m (s.drop i)) with
  | some i => s.take i
  | none => s

/-- standardize_description from cleaning.py: strip, collapse whitespace,
strip dots and spaces from both ends, then remove each trailing
reference-number pattern in order, stripping whitespace after each pass.
Non-string input (modelled upstream as a none cell) is mapped to the empty
string by the caller. -/
def standardize_description (text : String) : String :=
  let c := pyStrip text.data
  let c := collapseWs c
  let c := stripEnds (fun ch => ch == '.' || ch == ' ') c
  let c := pyStrip (subTrailing matchRefEnd c)
  let c := pyStrip (subTrailing matchTransactionEnd c)
  let c := pyStrip (subTrailing matchDigitsEnd c)
  ⟨c⟩

/-- Gregorian calendar date of a day count (days since 1970-01-01),
standard civil-from-days conversion; divisors are positive so Lean Int
division (Euclidean) agrees with floor division. -/
def civilFromDays (day : Int) : Int × Int × Int :=
  let z := day + 719468
  let era := z / 146097
  let doe := z % 146097
  let yoe := (doe - doe / 1460 + doe / 36524 - doe / 146096) / 365
  let y := yoe + era * 400
  let doy := doe - (365 * yoe + yoe / 4 - yoe / 100)
  let mp := (5 * doy + 2) / 153
  let d := doy - (153 * mp + 2) / 5 + 1
  let m := if mp < 10 then mp + 3 else mp - 9
  (if m ≤ 2 then y + 1 else y, m, d)

/-- Full weekday name of a day count (pandas Series.dt.day_name); day 0,
1970-01-01, is a Thursday. -/
def weekday_name_of (day : Int) : String :=
  ["Thursday", "Friday", "Saturday", "Sunday", "Monday", "Tuesday", "Wednesday"].getD
    (day % 7).toNat ""

/-- Zero-pad the year to four digits, as the pandas monthly Period string does. -/
def padYear (y : Int) : String :=
  if y < 0 then toString y
  else
    let s := toString y
    ⟨List.replicate (4 - s.data.length) '0' ++ s.data⟩

/-- Month label of a day count (pandas to_period of frequency M rendered as str). -/
def month_of (day : Int) : String :=
  let c := civilFromDays day
  let m := c.2.1
  padYear c.1 ++ "-" ++ (if m < 10 then "0" ++ toString m else toString m)

/-- A row of the transaction table as seen by clean_transactions.  Derived
columns that may not exist yet (class, weekday_name, month) are none before
cleaning; the cleaner fills them.  The Python column class is spelled cls
because class is a Lean keyword. -/
structure TxRow where
  date : Option Int
  description : Option String
  amount : Option Rat
  account_name : Option String
  balance : Option Rat
  cls : Option String
  weekday_name : Option String
  month : Option String
deriving DecidableEq

/-- Helper for drop_duplicates: keep the first occurrence of each row. -/
def dedupAux (seen : List TxRow) : List TxRow → List TxRow
  | [] => []
  | r :: t => if r ∈ seen then dedupAux seen t else r :: dedupAux (r :: seen) t

/-- pandas drop_duplicates over all columns, keeping first occurrences in order. -/
def dedup_keep_first (rows : List TxRow) : List TxRow :=
  dedupAux [] rows

/-- The fields written by clean_transactions for a surviving row with parsed
date d and amount a: standardized description, lower-cased account name
defaulting to chequing, re-coerced balance (identity on an already-typed
column), derived class, weekday name and month. -/
def clean_row (d : Int) (a : Rat) (r : TxRow) : TxRow :=
  { date := some d
    description := some (standardize_description (r.description.getD ""))
    amount := some a
    account_name := some (pyLower (r.account_name.getD "chequing"))
    balance := r.balance
    cls := some (if 0 < a then "Earnings" else "Expenses")
    weekday_name := some (weekday_name_of d)
    month := some (month_of d) }

/-- clean_transactions from cleaning.py: empty input returned unchanged;
otherwise drop exact duplicates, coerce date and amount (identity on the
typed model) and drop rows where either is missing, then rewrite the
remaining columns per clean_row.  The class values Earnings and Expenses
are both members of the categorical dtype, so astype introduces no nulls. -/
def clean_transactions (rows : List TxRow) : List TxRow :=
  if rows.isEmpty then rows
  else
    (dedup_keep_first rows).filterMap fun r =>
      match r.date, r.amount with
      | some d, some a => some (clean_row d a r)
      | _, _ => none

/-- normalize from classify.py: lower-case, collapse whitespace runs, strip. -/
def normalize (text : String) : String :=
  ⟨pyStrip (collapseWs (lowerList text.data))⟩

/-- The ordered deterministic keyword table of classify.py as
(keyword, category, sub_category) triples, in source insertion order. -/
def DETERMINISTIC_KEYWORDS : List (String × String × String) :=
  [("payroll", "Income", "Salary"),
   ("salary", "Income", "Salary"),
   ("direct deposit", "Income", "Salary"),
   ("interest", "Income", "Interest"),
   ("dividend", "Income", "Investments"),
   ("gst credit", "Income", "Government"),
   ("rent", "Housing", "Rent"),
   ("mortgage", "Housing", "Mortgage"),
   ("hydro", "Utilities", "Electricity"),
   ("enbridge", "Utilities", "Gas"),
   ("rogers", "Utilities", "Telecom"),
   ("bell", "Utilities", "Telecom"),
   ("telus", "Utilities", "Telecom"),
   ("shaw", "Utilities", "Telecom"),
   ("internet", "Utilities", "Telecom"),
   ("insurance", "Insurance", "Premiums"),
   ("property tax", "Housing", "Taxes"),
   ("scotia visa payment", "Transfers", "Credit Card Payment"),
   ("visa payment", "Transfers", "Credit Card Payment"),
   ("xfer", "Transfers", "Internal Transfer"),
   ("transfer", "Transfers", "Internal Transfer"),
   ("etfr", "Transfers", "Internal Transfer"),
   ("uber", "Transport", "Ride Share"),
   ("lyft", "Transport", "Ride Share"),
   ("shell", "Transport", "Fuel"),
   ("esso", "Transport", "Fuel"),
   ("petro", "Transport", "Fuel"),
   ("petro-canada", "Transport", "Fuel"),
   ("costco", "Living", "Groceries"),
   ("loblaws", "Living", "Groceries"),
   ("walmart", "Living", "Groceries"),
   ("sobeys", "Living", "Groceries"),
   ("no frills", "Living", "Groceries"),
   ("shoppers", "Health", "Pharmacy"),
   ("starbucks", "Food & Drink", "Coffee"),
   ("tim hortons", "Food & Drink", "Coffee"),
   ("mcdonald", "Food & Drink", "Fast Food"),
   ("netflix", "Entertainment", "Streaming"),
   ("spotify", "Entertainment", "Streaming"),
   ("canadian tire", "Living", "Home"),
   ("home depot", "Living", "Home Improvement"),
   ("amazon", "Shopping", "Online Retail"),
   ("airbnb", "Travel", "Accommodation"),
   ("uber eats", "Food & Drink", "Delivery")]

/-- deterministic_lookup from classify.py: first keyword of the ordered
table occurring as a substring of the description wins. -/
def deterministic_lookup (description : String) : Option (String × String) :=
  (DETERMINISTIC_KEYWORDS.find? (fun kv => containsSub description kv.1)).map
    (fun kv => (kv.2.1, kv.2.2))

/-- The fuzzy target vocabulary of classify.py, in source insertion order. -/
def FUZZY_TARGETS : List (String × String × String) :=
  [("starbuck", "Food & Drink", "Coffee"),
   ("mcdonalds", "Food & Drink", "Fast Food"),
   ("wendys", "Food & Drink", "Fast Food"),
   ("subway", "Food & Drink", "Fast Food"),
   ("shoppers drug mart", "Health", "Pharmacy"),
   ("ikea", "Living", "Home"),
   ("canadian tire", "Living", "Home"),
   ("costco wholesale", "Living", "Groceries"),
   ("longos", "Living", "Groceries"),
   ("freshco", "Living", "Groceries"),
   ("no frills", "Living", "Groceries"),
   ("uber trip", "Transport", "Ride Share"),
   ("uber eats", "Food & Drink", "Delivery")]

/-- The candidate keys of the fuzzy vocabulary, in order. -/
def fuzzyKeys : List String :=
  FUZZY_TARGETS.map (·.1)

/-- Dictionary access FUZZY_TARGETS of a key produced by the matcher. -/
def fuzzyValue (k : String) : Option (String × String) :=
  (FUZZY_TARGETS.find? (fun kv => kv.1 == k)).map (fun kv => (kv.2.1, kv.2.2))

/-- Length of the common prefix of two character lists. -/
def commonRun : List Char → List Char → Nat
  | a :: as, b :: bs => if a == b then commonRun as bs + 1 else 0
  | _, _ => 0

/-- Longest matching block of difflib SequenceMatcher (no junk, which is
exact for queries shorter than the autojunk threshold of 200 characters):
the maximal common block, earliest start in a, then earliest start in b. -/
def longestBlock (a b : List Char) : Nat × Nat × Nat :=
  (List.range a.length).foldl
    (fun best i =>
      (List.range b.length).foldl
        (fun best j =>
          let k := commonRun (a.drop i) (b.drop j)
          if best.2.2 < k then (i, j, k) else best)
        best)
    (0, 0, 0)

/-- Total size of the recursive matching blocks of SequenceMatcher; the
fuel is an upper bound on the recursion depth (each recursive call acts on
a strictly shorter first list, so length a + 1 units always suffice). -/
def matchingSizeFuel : Nat → List Char → List Char → Nat
  | 0, _, _ => 0
  | fuel + 1, a, b =>
    let ijk := longestBlock a b
    let i := ijk.1
    let j := ijk.2.1
    let k := ijk.2.2
    if k == 0 then 0
    else
      matchingSizeFuel fuel (a.take i) (b.take j) + k +
        matchingSizeFuel fuel (a.drop (i + k)) (b.drop (j + k))

/-- Total matched size of SequenceMatcher for first sequence a and second sequence b. -/
def matchingSize (a b : List Char) : Nat :=
  matchingSizeFuel (a.length + 1) a b

/-- Lexicographic comparison of character lists by code point (Python str ordering). -/
def strLtList : List Char → List Char → Bool
  | [], [] => false
  | [], _ :: _ => true
  | _ :: _, [] => false
  | a :: as, b :: bs => if a == b then strLtList as bs else decide (a < b)

/-- Python string less-than. -/
def strLt (a b : String) : Bool :=
  strLtList a.data b.data

/-- difflib.get_close_matches with n = 1 and cutoff cutNum / cutDen:
keep candidates whose similarity ratio 2M/T reaches the cutoff and return
the best one; the ratio comparison and the cutoff test are exact rational
comparisons (the binary-float ratios of difflib cannot straddle these
cutoffs at the short string lengths the classifier sees), and ratio ties
are broken toward the lexicographically larger candidate exactly as the
heap of (score, word) pairs does. -/
def get_close_matches_1 (word : String) (possibilities : List String)
    (cutNum cutDen : Nat) : Option String :=
  let w := word.data
  (possibilities.foldl
    (fun best x =>
      let m := matchingSize x.data w
      let t := x.data.length + w.length
      if 2 * m * cutDen < cutNum * t then best
      else
        match best with
        | none => some (m, t, x)
        | some (bm, bt, bx) =>
          if bm * t < m * bt || (bm * t == m * bt && strLt bx x) then some (m, t, x)
          else best)
    none).map (fun r => r.2.2)

/-- Characters kept together by the fuzzy tokenizer (regex split on runs of
characters that are neither word characters nor ampersand). -/
def isTokenChar (c : Char) : Bool :=
  isWordChar c || c == '&'

/-- Helper for splitTokens, accumulating the current token reversed. -/
def splitTokensAux (cur : List Char) : List Char → List String
  | [] => if cur.isEmpty then [] else [⟨cur.reverse⟩]
  | c :: t =>
    if isTokenChar c then splitTokensAux (c :: cur) t
    else if cur.isEmpty then splitTokensAux [] t
    else ⟨cur.reverse⟩ :: splitTokensAux [] t

/-- Tokenization of fuzzy_lookup: split on non-token characters, dropping empty tokens. -/
def splitTokens (s : String) : List String :=
  splitTokensAux [] s.data

/-- fuzzy_lookup from classify.py: first try each token against the
vocabulary at cutoff 0.92, then the whole description at cutoff 0.8. -/
def fuzzy_lookup (description : String) : Option (String × String) :=
  match (splitTokens description).findSome?
      (fun token => get_close_matches_1 token fuzzyKeys 92 100) with
  | some k => fuzzyValue k
  | none => (get_close_matches_1 description fuzzyKeys 80 100).bind fuzzyValue

/-- Decoded body of an enrichment API response: either the JSON failed to
parse (json.loads raising the caught ValueError) or it is an object whose
category and sub_category entries are absent or strings.  Non-object JSON
and non-string field values are outside the model. -/
inductive ApiBody where
  | unparseable : ApiBody
  | object (category : Option String) (sub_category : Option String) : ApiBody
deriving DecidableEq

/-- Outcome of one HTTP attempt: a network error, timeout, or read/decode
error (the caught URLError, TimeoutError and ValueError cases), or a
response with a status code and a decoded body. -/
inductive ApiOutcome where
  | failure : ApiOutcome
  | response (status : Nat) (body : ApiBody) : ApiOutcome
deriving DecidableEq

/-- Python truthiness of an optional string (None and the empty string are falsy). -/
def truthyOpt : Option String → Bool
  | none => false
  | some s => !(s == "")

/-- _call_enrichment_api from classify.py, with the environment
configuration and the HTTP transport made explicit.  The lru_cache
memoization is invisible here because the modelled call is a pure function
of the description. -/
def _call_enrichment_api (apiUrl apiKey : Option String)
    (transport : String → ApiOutcome) (description : String) :
    Option (String × String) :=
  if !(truthyOpt apiUrl) || !(truthyOpt apiKey) then none
  else
    match transport description with
    | .failure => none
    | .response status body =>
      if 400 ≤ status then none
      else
        match body with
        | .unparseable => none
        | .object category sub_category =>
          match category with
          | none => none
          | some c =>
            if c == "" then none
            else
              match sub_category with
              | some s => if s == "" then some (c, "Others") else some (c, s)
              | none => some (c, "Others")

/-- A row as consumed by classify_transactions: the cls field models the
class column, none when the column is absent (classify then derives it
from the sign of the amount, mirroring the column-level np.where). -/
structure CRow where
  description : String
  amount : Rat
  cls : Option String
deriving DecidableEq

/-- A classified row: category and sub_category are plain strings because
classify_transactions assigns both fields of some mapping on every path. -/
structure ClassifiedRow where
  description : String
  amount : Rat
  cls : String
  category : String
  sub_category : String
deriving DecidableEq

/-- The class value classify_transactions works with: the class column
when present, otherwise Earnings exactly when the amount is positive. -/
def effective_class (r : CRow) : String :=
  r.cls.getD (if 0 < r.amount then "Earnings" else "Expenses")

/-- DEFAULT_MAPPING dictionary get with default DEFAULT_MAPPING of
Expenses: Earnings maps to (Income, General); Expenses and any other value
fall to (Others, Others). -/
def DEFAULT_MAPPING (cls : String) : String × String :=
  if cls == "Earnings" then ("Income", "General") else ("Others", "Others")

/-- Per-row body of the classification loop: deterministic lookup, then
fuzzy lookup, then the optional remote call, then the class-based default. -/
def classify_row (useApi : Bool) (api : String → Option (String × String))
    (r : CRow) : ClassifiedRow :=
  let nd := normalize r.description
  let m0 := deterministic_lookup nd
  let m1 := match m0 with
    | some m => some m
    | none => fuzzy_lookup nd
  let m2 := match m1 with
    | some m => some m
    | none => if useApi then api nd else none
  let m := match m2 with
    | some m => m
    | none => DEFAULT_MAPPING (effective_class r)
  ⟨r.description, r.amount, effective_class r, m.1, m.2⟩

/-- classify_transactions from classify.py: every row gains category and
sub_category (the empty-table branch only adds the empty columns, which the
map on the empty list reflects). -/
def classify_transactions (useApi : Bool)
    (api : String → Option (String × String)) (rows : List CRow) :
    List ClassifiedRow :=
  rows.map (classify_row useApi api)


/-- A canonical normalized transaction row as produced by
read_scotiabank_csv and consumed by remove_internal_transfers. -/
structure NormRow where
  date : Int
  description : String
  amount : Rat
  account_name : String
  balance : Option Rat
deriving DecidableEq

/-- The transfer keyword list of io_utils.py. -/
def TRANSFER_KEYWORDS : List String :=
  ["transfer", "xfer", "between accounts", "online banking transfer",
   "customer transfer", "etfr"]

/-- The fixed self-transfer labels of io_utils.py (already lower-case in the source). -/
def INTERNAL_TRANSFER_DESCRIPTIONS : List String :=
  ["customer transfer cr.", "customer transfer dr."]

/-- _matches_transfer_keyword from io_utils.py. -/
def _matches_transfer_keyword (text : String) : Bool :=
  TRANSFER_KEYWORDS.any (fun k => containsSub (pyLower text) k)

/-- Round-half-to-even of the fraction n / d for positive d, written with
integer arithmetic on the numerator and denominator. -/
def roundHalfEvenDiv (n d : Int) : Int :=
  let q := n / d
  let r := n % d
  if 2 * r < d then q
  else if d < 2 * r then q + 1
  else if q % 2 == 0 then q else q + 1

/-- The merge key of remove_internal_transfers: the absolute amount
rounded to two decimals, represented exactly as a whole number of cents
(for a normalized rational the absolute value has numerator natAbs over
the same denominator). -/
def abs_amount_cents (a : Rat) : Int :=
  roundHalfEvenDiv (100 * (a.num.natAbs : Int)) (a.den : Int)

/-- The working table of remove_internal_transfers: rows tagged with their
positional index (the reset integer index), minus the rows whose
lower-cased description is one of the fixed internal-transfer labels. -/
def transfers_working (rows : List NormRow) : List (Nat × NormRow) :=
  rows.enum.filter
    (fun p => !(INTERNAL_TRANSFER_DESCRIPTIONS.contains (pyLower p.2.description)))

/-- The positive-amount transfer-flagged candidates, in index order. -/
def transfers_positives (rows : List NormRow) : List (Nat × NormRow) :=
  (transfers_working rows).filter
    (fun p => decide (0 < p.2.amount) && _matches_transfer_keyword p.2.description)

/-- The negative-amount transfer-flagged candidates, in index order. -/
def transfers_negatives (rows : List NormRow) : List (Nat × NormRow) :=
  (transfers_working rows).filter
    (fun p => decide (p.2.amount < 0) && _matches_transfer_keyword p.2.description)

/-- One candidate pair: a positive-flagged and a negative-flagged indexed row. -/
abbrev TransferPair := (Nat × NormRow) × (Nat × NormRow)

/-- The pandas inner merge of positives and negatives on the rounded
absolute amount, enumerated left-row-major then right-row order. -/
def transfers_merged (rows : List NormRow) : List TransferPair :=
  (transfers_positives rows).flatMap
    (fun p =>
      (transfers_negatives rows).filterMap
        (fun n =>
          if abs_amount_cents p.2.amount == abs_amount_cents n.2.amount then some (p, n)
          else none))

/-- Absolute date difference of a candidate pair, in days. -/
def pair_date_diff (pr : TransferPair) : Int :=
  ((pr.1.2.date - pr.2.2.date).natAbs : Int)

/-- Candidate pairs surviving the tolerance filter on the date difference. -/
def transfers_candidate_pairs (tol : Int) (rows : List NormRow) : List TransferPair :=
  (transfers_merged rows).filter (fun pr => decide (pair_date_diff pr ≤ tol))

/-- Stable insertion of an element into a list sorted by an integer key:
the new element goes before the first strictly-later or equal-key element
coming from further right, keeping the original enumeration order on ties. -/
def insortBy (key : TransferPair → Int) (x : TransferPair) :
    List TransferPair → List TransferPair
  | [] => [x]
  | y :: t => if key x ≤ key y then x :: y :: t else y :: insortBy key x t

/-- Stable sort by an integer key (models the ascending sort_values on the
date difference; ties keep pair enumeration order). -/
def sortPairsBy (key : TransferPair → Int) : List TransferPair → List TransferPair
  | [] => []
  | x :: t => insortBy key x (sortPairsBy key t)

/-- State of the greedy pairing loop: used positive indices, used negative
indices, and the selected pairs. -/
abbrev GreedyState := List Nat × List Nat × List TransferPair

/-- One iteration of the greedy loop: skip the pair if either side was
already consumed, otherwise mark both sides used and keep the pair. -/
def greedy_step (st : GreedyState) (pr : TransferPair) : GreedyState :=
  if st.1.contains pr.1.1 || st.2.1.contains pr.2.1 then st
  else (pr.1.1 :: st.1, pr.2.1 :: st.2.1, pr :: st.2.2)

/-- The pairs selected greedily in ascending date-difference order. -/
def selected_pairs (tol : Int) (rows : List NormRow) : List TransferPair :=
  ((sortPairsBy pair_date_diff (transfers_candidate_pairs tol rows)).foldl
    greedy_step ([], [], [])).2.2

/-- The index set dropped by remove_internal_transfers. -/
def dropped_indices (tol : Int) (rows : List NormRow) : List Nat :=
  (selected_pairs tol rows).foldr (fun pr acc => pr.1.1 :: pr.2.1 :: acc) []

/-- remove_internal_transfers from io_utils.py (the Python tolerance_days
parameter defaults to 2; callers here pass it explicitly): empty input
returned as is; the fixed-label rows are always removed from the working copy; when
either flagged side is empty, or the merge on equal rounded absolute
amounts is empty, the working copy is returned; otherwise the greedily
matched pairs within tolerance are dropped and the rest returned in order. -/
def remove_internal_transfers (rows : List NormRow) (tolerance_days : Int) :
    List NormRow :=
  if rows.isEmpty then rows
  else
    let working := transfers_working rows
    if (transfers_positives rows).isEmpty || (transfers_negatives rows).isEmpty then
      working.map (·.2)
    else if (transfers_merged rows).isEmpty then working.map (·.2)
    else
      let drops := dropped_indices tolerance_days rows
      (working.filter (fun p => !(drops.contains p.1))).map (·.2)

/-- A raw delimited file after pd.read_csv with dtype str: a header row
and string-or-missing cells (the byte decoding and delimiter sniffing sit
upstream of this model; the schema checks read the parsed header). -/
structure CsvTable where
  header : List String
  rows : List (List (Option String))

/-- The column candidate lists of io_utils.py. -/
def DATE_CANDIDATES : List String :=
  ["date", "transaction date", "posting date", "posted date", "date posted",
   "date/time"]

/-- Description column candidates. -/
def DESCRIPTION_CANDIDATES : List String :=
  ["description", "transaction details", "details", "memo", "narrative",
   "description 1"]

/-- Amount column candidates. -/
def AMOUNT_CANDIDATES : List String :=
  ["amount", "transaction amount", "cad$", "amount ($)", "amount (cad)",
   "cad amount"]

/-- Debit column candidates. -/
def DEBIT_CANDIDATES : List String :=
  ["debit", "withdrawal", "withdrawals", "debito"]

/-- Credit column candidates. -/
def CREDIT_CANDIDATES : List String :=
  ["credit", "deposit", "deposits", "credito"]

/-- Balance column candidates. -/
def BALANCE_CANDIDATES : List String :=
  ["balance", "account balance", "running balance", "available balance"]

/-- Account column candidates. -/
def ACCOUNT_CANDIDATES : List String :=
  ["account", "account name", "account type", "product"]

/-- _normalize_columns from io_utils.py: strip, lower, collapse whitespace. -/
def _normalize_columns (columns : List String) : List String :=
  columns.map (fun col => ⟨collapseWs (lowerList (pyStrip col.data))⟩)

/-- Python str.endswith. -/
def endsWithStr (s suffix : String) : Bool :=
  suffix.data.isSuffixOf s.data

/-- _find_first_match from io_utils.py: first candidate present verbatim;
otherwise the first column (scanning candidates in order, columns in
order) whose name ends with a candidate. -/
def _find_first_match (columns candidates : List String) : Option String :=
  match candidates.find? (fun c => columns.contains c) with
  | some c => some c
  | none => candidates.findSome? (fun cand => columns.find? (fun col => endsWithStr col cand))

/-- Printable characters in the ASCII model (Python str.isprintable is
false on control characters). -/
def isPrintableChar (c : Char) : Bool :=
  !(c.toNat < 32 || c.toNat == 127)

/-- _clean_string from io_utils.py on a cell: a missing cell (None or NaN)
becomes the empty string; otherwise non-breaking spaces become spaces, the
value is stripped, whitespace runs collapse, non-printable characters are
removed and the result is stripped again. -/
def _clean_string (value : Option String) : String :=
  match value with
  | none => ""
  | some v =>
    let l := v.data.map (fun c => if c == '\xa0' then ' ' else c)
    let l := collapseWs (pyStrip l)
    let l := l.filter isPrintableChar
    ⟨pyStrip l⟩

/-- Value of a digit run. -/
def digitsVal (l : List Char) : Nat :=
  l.foldl (fun acc c => acc * 10 + (c.toNat - 48)) 0

/-- Exponent tail of a float literal: an optional sign then one or more
digits running to the end. -/
def parseExpTail (l : List Char) : Option Int :=
  let sgn : Int := match l.head? with
    | some '-' => -1
    | _ => 1
  let l := match l with
    | '-' :: t => t
    | '+' :: t => t
    | _ => l
  let ds := l.takeWhile Char.isDigit
  if ds.isEmpty || !(l.dropWhile Char.isDigit).isEmpty then none
  else some (sgn * (digitsVal ds : Int))

/-- Python float() on a stripped literal, restricted to finite decimal
forms with an optional exponent (the inf and nan spellings and digit
underscores are outside the model; a NaN cell behaves downstream exactly
like a missing one, which the none result already captures). -/
def parseFloat (l : List Char) : Option Rat :=
  let sgn : Int := match l.head? with
    | some '-' => -1
    | _ => 1
  let l := match l with
    | '-' :: t => t
    | '+' :: t => t
    | _ => l
  let intPart := l.takeWhile Char.isDigit
  let l1 := l.dropWhile Char.isDigit
  let fracPart := match l1 with
    | '.' :: t => t.takeWhile Char.isDigit
    | _ => []
  let l2 := match l1 with
    | '.' :: t => t.dropWhile Char.isDigit
    | _ => l1
  if intPart.isEmpty && fracPart.isEmpty then none
  else
    let expVal : Option Int := match l2 with
      | [] => some 0
      | 'e' :: t => parseExpTail t
      | 'E' :: t => parseExpTail t
      | _ => none
    match expVal with
    | none => none
    | some e =>
      let mant : Int := (digitsVal (intPart ++ fracPart) : Int)
      let scale : Int := e - (fracPart.length : Int)
      if 0 ≤ scale then some (mkRat (sgn * mant * (10 ^ scale.toNat)) 1)
      else some (mkRat (sgn * mant) (10 ^ (-scale).toNat))

/-- _clean_numeric from io_utils.py on a cell: missing stays missing; an
empty stripped value is missing; otherwise thousands separators and
currency signs are removed, an opening parenthesis becomes a minus sign, a
closing parenthesis is removed, and the result is parsed as a float. -/
def _clean_numeric (value : Option String) : Option Rat :=
  match value with
  | none => none
  | some v =>
    let l := pyStrip v.data
    if l.isEmpty then none
    else
      let l := l.filter (fun c => !(c == ',' || c == '$'))
      let l := (l.map (fun c => if c == '(' then '-' else c)).filter (fun c => !(c == ')'))
      parseFloat l

/-- Cell of a named column in one raw row. -/
def getCell (cols : List String) (name : String) (row : List (Option String)) :
    Option String :=
  match cols.findIdx? (fun c => c == name) with
  | none => none
  | some i => row.getD i none

/-- A whole named column of the raw table. -/
def getColumn (cols : List String) (rows : List (List (Option String)))
    (name : String) : List (Option String) :=
  rows.map (getCell cols name)

/-- The raw rows surviving the dropna over all columns. -/
def non_empty_rows (table : CsvTable) : List (List (Option String)) :=
  table.rows.filter (fun r => r.any (fun c => c.isSome))

/-- The normalized header of the table. -/
def table_columns (table : CsvTable) : List String :=
  _normalize_columns table.header

/-- The detected account column of the table, as a series, when present. -/
def account_series (table : CsvTable) : Option (List (Option String)) :=
  (_find_first_match (table_columns table) ACCOUNT_CANDIDATES).map
    (getColumn (table_columns table) (non_empty_rows table))

/-- infer_account_name from io_utils.py: the first non-missing cell of the
account column, stripped, wins when non-empty (lower-cased); otherwise the
file-name heuristics; otherwise chequing. -/
def infer_account_name (file_name : Option String)
    (account_column : Option (List (Option String))) : String :=
  let fromFile :=
    match file_name with
    | none => "chequing"
    | some f =>
      if f == "" then "chequing"
      else
        let lowered := pyLower f
        if containsSub lowered "sav" then "savings"
        else if containsSub lowered "visa" || containsSub lowered "credit" ||
            containsSub lowered "card" then "credit card"
        else if containsSub lowered "tfsa" then "tfsa"
        else "chequing"
  match account_column with
  | none => fromFile
  | some col =>
    match col.filterMap id with
    | [] => fromFile
    | v :: _ =>
      let sv : String := ⟨pyStrip v.data⟩
      if sv == "" then fromFile else pyLower sv

/-- Stable insertion for the date sort of the normalizer. -/
def insortRow (x : NormRow) : List NormRow → List NormRow
  | [] => [x]
  | y :: t => if x.date ≤ y.date then x :: y :: t else y :: insortRow x t

/-- Stable ascending sort of normalized rows by date. -/
def sortRowsByDate : List NormRow → List NormRow
  | [] => []
  | x :: t => insortRow x (sortRowsByDate t)

/-- The amount of one raw row: the cleaned single amount column when one
was detected, otherwise credit minus debit with missing sides as zero
(this branch is only reached when a debit or credit column exists). -/
def row_amount (cols : List String) (amount_column debit_column credit_column : Option String)
    (row : List (Option String)) : Option Rat :=
  match amount_column with
  | some ac => _clean_numeric (getCell cols ac row)
  | none =>
    let d : Rat := match debit_column with
      | some c => (_clean_numeric (getCell cols c row)).getD 0
      | none => 0
    let cr : Rat := match credit_column with
      | some c => (_clean_numeric (getCell cols c row)).getD 0
      | none => 0
    some (0 - d + cr)

/-- read_scotiabank_csv from io_utils.py, downstream of pd.read_csv: the
date parser stands for pd.to_datetime with coercion (none is NaT).  The
schema checks raise in source order: missing date or description column
first, then a missing amount source; otherwise the normalized table is
built, rows with missing date or amount are dropped, and the result is
sorted by date. -/
def read_scotiabank_csv (parse_date : String → Option Int) (table : CsvTable)
    (file_name : Option String) : Except String (List NormRow) :=
  let cols := table_columns table
  let date_column := _find_first_match cols DATE_CANDIDATES
  let description_column := _find_first_match cols DESCRIPTION_CANDIDATES
  let balance_column := _find_first_match cols BALANCE_CANDIDATES
  let amount_column := _find_first_match cols AMOUNT_CANDIDATES
  let debit_column := _find_first_match cols DEBIT_CANDIDATES
  let credit_column := _find_first_match cols CREDIT_CANDIDATES
  match date_column, description_column with
  | none, _ => .error "Required columns not found in uploaded file."
  | some _, none => .error "Required columns not found in uploaded file."
  | some dc, some xc =>
    if amount_column.isNone && debit_column.isNone && credit_column.isNone then
      .error "Could not determine amount columns in uploaded file."
    else
      let account_name := infer_account_name file_name (account_series table)
      let normalized := (non_empty_rows table).filterMap
        (fun row =>
          match (getCell cols dc row).bind parse_date,
              row_amount cols amount_column debit_column credit_column row with
          | some d, some a =>
            some { date := d
                   description := _clean_string (getCell cols xc row)
                   amount := a
                   account_name := account_name
                   balance := match balance_column with
                     | some bc => _clean_numeric (getCell cols bc row)
                     | none => none }
          | _, _ => none)
      .ok (sortRowsByDate normalized)

/-- Invariant of the greedy pairing fold used in the proofs below: every
selected pair has both its indices registered as used, and the selected
positive (respectively negative) indices are pairwise distinct. -/
def GreedyInv (st : GreedyState) : Prop :=
  (∀ pr ∈ st.2.2, pr.1.1 ∈ st.1 ∧ pr.2.1 ∈ st.2.1) ∧
  (st.2.2.map (fun pr => pr.1.1)).Nodup ∧
  (st.2.2.map (fun pr => pr.2.1)).Nodup

/-- Example: a positive transfer-keyword row. -/
def exPos : NormRow := ⟨0, "online transfer to savings", 300, "chequing", none⟩

/-- Example: a matching negative transfer-keyword row one day later. -/
def exNeg : NormRow := ⟨1, "online transfer from chequing", -300, "savings", none⟩

/-- Example: the same negative row five days after the positive one. -/
def exNegFar : NormRow := ⟨5, "online transfer from chequing", -300, "savings", none⟩

/-- Example: a negative transfer row on the same day as exPos. -/
def exNeg0 : NormRow := ⟨0, "online transfer from chequing", -300, "savings", none⟩

/-- Example: a second negative transfer row of the same amount, one day later. -/
def exNeg2 : NormRow := ⟨1, "e-transfer to friend", -300, "chequing", none⟩

/-- Example: a row carrying one of the fixed internal-transfer labels. -/
def custTransferRow : NormRow := ⟨0, "Customer Transfer Cr.", 300, "chequing", none⟩

/-- Example: a classification row no strategy resolves. -/
def c1row : CRow := ⟨"zzz qqq", -5, none⟩

/-- Example: an input row whose description keeps shrinking under repeated
standardization (a trailing digit run hides a trailing dot). -/
def c3row : TxRow := ⟨some 0, some "abc. 1234", some 5, some "x", none, none, none, none⟩

/-- Example: a stable input row for the idempotence witness. -/
def c3rows : List TxRow := [⟨some 0, some "coffee shop", some (-4), some "a", none, none, none, none⟩]

/-- Example: input for the cleaning class witness. -/
def c2rows : List TxRow := [⟨some 0, some "groceries", some (-3), some "Chequing", none, none, none, none⟩]

/-- The cleaned row produced from c2rows. -/
def c2out : TxRow :=
  ⟨some 0, some "groceries", some (-3), some "chequing", none, some "Expenses",
   some "Thursday", some "1970-01"⟩

/-- A date parser that accepts nothing (every cell coerces to NaT). -/
def pdNone : String → Option Int := fun _ => none

/-- A date parser mapping every cell to day zero. -/
def pd0 : String → Option Int := fun _ => some 0

/-- Example: a parsed header with a date, description and debit column but
no amount and no credit column. -/
def c4table : CsvTable := ⟨["date", "description", "debit"], [[some "x", some "y", some "10"]]⟩

/-- Example: a table whose account column carries two different values. -/
def c10table : CsvTable :=
  ⟨["Date", "Description", "Amount", "Account"],
   [[some "d", some "a", some "1", some "Chequing"],
    [some "d", some "b", some "2", some "Savings"]]⟩

/-- First normalized row of c10table. -/
def r10a : NormRow := ⟨0, "a", 1, "chequing", none⟩

/-- Second normalized row of c10table. -/
def r10b : NormRow := ⟨0, "b", 2, "chequing", none⟩

/-- Lower-casing a character is idempotent. -/
theorem lowerChar_idem (c : Char) : lowerChar (lowerChar c) = lowerChar c := by
  by_cases h : 65 ≤ c.toNat ∧ c.toNat ≤ 90
  · have hv : Nat.isValidChar (c.toNat + 32) := Or.inl (by omega)
    have ht : (Char.ofNat (c.toNat + 32)).toNat = c.toNat + 32 := by
      unfold Char.ofNat
      rw [dif_pos hv]
      rfl
    unfold lowerChar
    rw [if_pos h, if_neg (by rw [ht]; omega)]
  · unfold lowerChar
    rw [if_neg h, if_neg h]

/-- Lower-casing a character list is idempotent. -/
theorem lowerList_idem (l : List Char) : lowerList (lowerList l) = lowerList l := by
  induction l with
  | nil => rfl
  | cons c t ih =>
    simp only [lowerList, List.map_cons] at ih ⊢
    rw [lowerChar_idem]
    exact congrArg _ ih

/-- Lower-casing a string is idempotent. -/
theorem pyLower_idem (s : String) : pyLower (pyLower s) = pyLower s := by
  unfold pyLower
  exact congrArg String.mk (lowerList_idem s.data)

/-- Deduplication is the identity on a duplicate-free list whose elements
avoid the seen accumulator. -/
theorem dedupAux_eq_self :
    ∀ (l : List TxRow) (seen : List TxRow), l.Nodup → (∀ x ∈ l, x ∉ seen) →
      dedupAux seen l = l := by
  intro l
  induction l with
  | nil => intro seen _ _; rfl
  | cons r t ih =>
    intro seen hnd hs
    unfold dedupAux
    rw [if_neg (hs r (List.mem_cons_self r t))]
    have hnd' := List.nodup_cons.1 hnd
    refine congrArg _ (ih (r :: seen) hnd'.2 ?_)
    intro x hx hc
    rcases List.mem_cons.1 hc with h1 | h2
    · exact hnd'.1 (h1 ▸ hx)
    · exact hs x (List.mem_cons_of_mem _ hx) h2

/-- filterMap with a function that fixes every element is the identity. -/
theorem filterMap_id_of {α : Type} (f : α → Option α) :
    ∀ l : List α, (∀ x ∈ l, f x = some x) → l.filterMap f = l := by
  intro l
  induction l with
  | nil => intro _; rfl
  | cons a t ih =>
    intro h
    rw [List.filterMap_cons, h a (List.mem_cons_self a t),
      ih (fun x hx => h x (List.mem_cons_of_mem _ hx))]

/-- Every row surviving clean_transactions is literally a clean_row image. -/
theorem mem_clean_transactions {rows : List TxRow} {r : TxRow}
    (h : r ∈ clean_transactions rows) : ∃ d a x, r = clean_row d a x := by
  unfold clean_transactions at h
  split at h
  · rename_i hE
    rw [List.isEmpty_iff.1 hE] at h
    exact absurd h (List.not_mem_nil r)
  · obtain ⟨x, _, hfx⟩ := List.mem_filterMap.1 h
    cases hxd : x.date with
    | none => rw [hxd] at hfx; simp at hfx
    | some d =>
      cases hxa : x.amount with
      | none => rw [hxd, hxa] at hfx; simp at hfx
      | some a =>
        rw [hxd, hxa] at hfx
        simp only [Option.some.injEq] at hfx
        exact ⟨d, a, x, hfx.symm⟩

/-- C2: for every row surviving clean_transactions, the derived class is
Earnings exactly when the amount is positive (a zero amount yields
Expenses), and no surviving row has a missing class. -/
theorem clean_transactions_class_sign (rows : List TxRow) (r : TxRow)
    (h : r ∈ clean_transactions rows) :
    (∃ a : Rat, r.amount = some a ∧
        r.cls = some (if 0 < a then "Earnings" else "Expenses")) ∧
    r.cls ≠ none ∧
    (r.cls = some "Earnings" ↔ ∃ a : Rat, r.amount = some a ∧ 0 < a) ∧
    (r.amount = some 0 → r.cls = some "Expenses") := by
  obtain ⟨d, a, x, rfl⟩ := mem_clean_transactions h
  refine ⟨⟨a, rfl, rfl⟩, by simp [clean_row], ?_, ?_⟩
  · constructor
    · intro hcls
      by_cases hpos : 0 < a
      · exact ⟨a, rfl, hpos⟩
      · simp only [clean_row, if_neg hpos, Option.some.injEq] at hcls
        exact absurd hcls (by decide)
    · rintro ⟨a0, ha0, hpos⟩
      simp only [clean_row, Option.some.injEq] at ha0
      subst ha0
      simp [clean_row, if_pos hpos]
  · intro ha
    simp only [clean_row, Option.some.injEq] at ha
    subst ha
    simp [clean_row]

/-- C2 witness: the concrete cleaned row of c2rows. -/
theorem clean_transactions_class_sign_witness : c2out.cls ≠ none :=
  (clean_transactions_class_sign c2rows c2out (by decide)).2.1

/-- C3 counterexample: cleaning is not idempotent; removing the trailing
digit run of this description exposes a trailing dot that only the second
pass strips. -/
theorem clean_transactions_not_idempotent :
    clean_transactions (clean_transactions [c3row]) ≠ clean_transactions [c3row] := by
  decide

/-- C3 amended: clean_transactions is idempotent on every input whose
cleaned table is free of duplicate rows and whose cleaned descriptions are
fixed points of standardize_description (the lower-casing of the account
name, the re-coercions and the derived columns are always stable). -/
theorem clean_transactions_idempotent (rows : List TxRow)
    (hnd : (clean_transactions rows).Nodup)
    (hfix : ∀ r ∈ clean_transactions rows,
      ∃ s, r.description = some s ∧ standardize_description s = s) :
    clean_transactions (clean_transactions rows) = clean_transactions rows := by
  by_cases hE : (clean_transactions rows).isEmpty = true
  · conv_lhs => rw [clean_transactions]
    rw [if_pos hE]
  · conv_lhs => rw [clean_transactions]
    rw [if_neg hE]
    unfold dedup_keep_first
    rw [dedupAux_eq_self (clean_transactions rows) [] hnd (by simp)]
    refine filterMap_id_of _ (clean_transactions rows) ?_
    intro r hr
    obtain ⟨d, a, x, hshape⟩ := mem_clean_transactions hr
    obtain ⟨s, hds, hss⟩ := hfix r hr
    subst hshape
    simp only [clean_row, Option.some.injEq] at hds
    subst hds
    simp [clean_row, hss, pyLower_idem]

/-- C3 amended witness: a concrete table with a stable description. -/
theorem clean_transactions_idempotent_witness :
    clean_transactions (clean_transactions c3rows) = clean_transactions c3rows := by
  refine clean_transactions_idempotent c3rows (by decide) ?_
  intro r hr
  have hL : clean_transactions c3rows =
      [⟨some 0, some "coffee shop", some (-4), some "a", none, some "Expenses",
        some "Thursday", some "1970-01"⟩] := by decide
  rw [hL] at hr
  rcases List.mem_singleton.1 hr with rfl
  exact ⟨"coffee shop", rfl, by decide⟩

/-- Projecting the working table back to rows is the label filter. -/
theorem working_map (rows : List NormRow) :
    (transfers_working rows).map (fun p => p.2) =
      rows.filter
        (fun r => !(INTERNAL_TRANSFER_DESCRIPTIONS.contains (pyLower r.description))) := by
  unfold transfers_working
  have h : ∀ (n : Nat),
      ((rows.enumFrom n).filter
        (fun p => !(INTERNAL_TRANSFER_DESCRIPTIONS.contains (pyLower p.2.description)))).map
          (fun p => p.2) =
        rows.filter
          (fun r => !(INTERNAL_TRANSFER_DESCRIPTIONS.contains (pyLower r.description))) := by
    induction rows with
    | nil => intro n; rfl
    | cons r t ih =>
      intro n
      rw [List.enumFrom_cons, List.filter_cons, List.filter_cons]
      cases hc : INTERNAL_TRANSFER_DESCRIPTIONS.contains (pyLower r.description) with
      | false =>
        simp only [hc, Bool.not_false, if_true, List.map_cons, List.cons.injEq, true_and]
        exact ih (n + 1)
      | true =>
        simp only [hc, Bool.not_true, if_false]
        exact ih (n + 1)
  exact h 0


/-- C5 counterexample: a table consisting of one fixed-label transfer row
has no candidate pair at all, yet remove_internal_transfers does not
return it unchanged: the label row is dropped unconditionally. -/
theorem remove_internal_transfers_not_unchanged :
    (transfers_positives [custTransferRow]).isEmpty = true ∧
    (transfers_negatives [custTransferRow]).isEmpty = true ∧
    remove_internal_transfers [custTransferRow] 2 ≠ [custTransferRow] := by
  decide

/-- C5 amended: remove_internal_transfers is total, and whenever no
candidate pair exists (no positive-amount flagged row, no negative-amount
flagged row, or no equal-absolute-amount match) it returns the input rows
unchanged except that rows whose lower-cased description is one of the
fixed internal-transfer labels are always removed. -/
theorem remove_internal_transfers_no_candidates (tol : Int) (rows : List NormRow)
    (h : (transfers_positives rows).isEmpty = true ∨
         (transfers_negatives rows).isEmpty = true ∨
         (transfers_merged rows).isEmpty = true) :
    remove_internal_transfers rows tol =
      rows.filter
        (fun r => !(INTERNAL_TRANSFER_DESCRIPTIONS.contains (pyLower r.description))) := by
  unfold remove_internal_transfers
  by_cases hE : rows.isEmpty = true
  · rw [if_pos hE, List.isEmpty_iff.1 hE]
    rfl
  · rw [if_neg hE]
    rcases h with h1 | h2 | h3
    · rw [if_pos (by rw [h1]; rfl)]
      exact working_map rows
    · rw [if_pos (by rw [h2, Bool.or_true])]
      exact working_map rows
    · by_cases hpn : ((transfers_positives rows).isEmpty ||
          (transfers_negatives rows).isEmpty) = true
      · rw [if_pos hpn]
        exact working_map rows
      · rw [if_neg hpn, if_pos h3]
        exact working_map rows

/-- C5 amended witness: the fixed-label singleton falls in the no-pairs
case and comes back with the label row removed. -/
theorem remove_internal_transfers_no_candidates_witness :
    remove_internal_transfers [custTransferRow] 2 = [] :=
  (remove_internal_transfers_no_candidates 2 [custTransferRow]
    (Or.inl (by decide))).trans (by decide)

/-- Every merged pair joins a positive and a negative candidate on an
equal rounded absolute amount. -/
theorem transfers_merged_sound {rows : List NormRow} {pr : TransferPair}
    (h : pr ∈ transfers_merged rows) :
    pr.1 ∈ transfers_positives rows ∧ pr.2 ∈ transfers_negatives rows ∧
    abs_amount_cents pr.1.2.amount = abs_amount_cents pr.2.2.amount := by
  unfold transfers_merged at h
  obtain ⟨p, hp, hpr⟩ := List.mem_flatMap.1 h
  obtain ⟨n, hn, hite⟩ := List.mem_filterMap.1 hpr
  by_cases hc : (abs_amount_cents p.2.amount == abs_amount_cents n.2.amount) = true
  · rw [if_pos hc] at hite
    obtain rfl := Option.some.inj hite
    exact ⟨hp, hn, eq_of_beq hc⟩
  · rw [if_neg hc] at hite
    exact absurd hite (by simp)

/-- Positive candidates have positive amount and the transfer flag. -/
theorem transfers_positives_pos {rows : List NormRow} {p : Nat × NormRow}
    (h : p ∈ transfers_positives rows) :
    0 < p.2.amount ∧ _matches_transfer_keyword p.2.description = true := by
  unfold transfers_positives at h
  have h2 := (List.mem_filter.1 h).2
  rw [Bool.and_eq_true] at h2
  exact ⟨of_decide_eq_true h2.1, h2.2⟩

/-- Negative candidates have negative amount and the transfer flag. -/
theorem transfers_negatives_neg {rows : List NormRow} {n : Nat × NormRow}
    (h : n ∈ transfers_negatives rows) :
    n.2.amount < 0 ∧ _matches_transfer_keyword n.2.description = true := by
  unfold transfers_negatives at h
  have h2 := (List.mem_filter.1 h).2
  rw [Bool.and_eq_true] at h2
  exact ⟨of_decide_eq_true h2.1, h2.2⟩

/-- C6: candidate pairs only combine a positive and a negative row whose
absolute amounts rounded to cents agree and whose dates differ by at most
the tolerance; with the default tolerance of two days, the one-day +300
and -300 transfer pair is removed entirely while the five-day pair is
retained. -/
theorem transfers_candidate_pairs_sound :
    (∀ (tol : Int) (rows : List NormRow) (pr : TransferPair),
       pr ∈ transfers_candidate_pairs tol rows →
       abs_amount_cents pr.1.2.amount = abs_amount_cents pr.2.2.amount ∧
       pair_date_diff pr ≤ tol ∧ 0 < pr.1.2.amount ∧ pr.2.2.amount < 0) ∧
    remove_internal_transfers [exPos, exNeg] 2 = [] ∧
    remove_internal_transfers [exPos, exNegFar] 2 = [exPos, exNegFar] := by
  refine ⟨?_, by decide, by decide⟩
  intro tol rows pr hpr
  unfold transfers_candidate_pairs at hpr
  have hmf := List.mem_filter.1 hpr
  obtain ⟨hp, hn, habs⟩ := transfers_merged_sound hmf.1
  exact ⟨habs, of_decide_eq_true hmf.2, (transfers_positives_pos hp).1,
    (transfers_negatives_neg hn).1⟩

/-- C6 witness: the concrete one-day pair satisfies the pairing conditions. -/
theorem transfers_candidate_pairs_sound_witness :
    abs_amount_cents exPos.amount = abs_amount_cents exNeg.amount ∧
    pair_date_diff ((0, exPos), (1, exNeg)) ≤ 2 := by
  have h := transfers_candidate_pairs_sound.1 2 [exPos, exNeg]
    ((0, exPos), (1, exNeg)) (by decide)
  exact ⟨h.1, h.2.1⟩

/-- One greedy step preserves the pairing invariant. -/
theorem greedy_step_inv (st : GreedyState) (pr : TransferPair)
    (h : GreedyInv st) : GreedyInv (greedy_step st pr) := by
  unfold greedy_step
  by_cases hc : (st.1.contains pr.1.1 || st.2.1.contains pr.2.1) = true
  · rw [if_pos hc]
    exact h
  · rw [if_neg hc]
    rw [Bool.or_eq_true] at hc
    have ha : pr.1.1 ∉ st.1 := by
      intro hm
      exact hc (Or.inl (List.elem_eq_true_of_mem hm))
    have hb : pr.2.1 ∉ st.2.1 := by
      intro hm
      exact hc (Or.inr (List.elem_eq_true_of_mem hm))
    obtain ⟨hmem, hnp, hnn⟩ := h
    refine ⟨?_, ?_, ?_⟩
    · intro q hq
      rcases List.mem_cons.1 hq with rfl | hq2
      · exact ⟨List.mem_cons_self _ _, List.mem_cons_self _ _⟩
      · exact ⟨List.mem_cons_of_mem _ (hmem q hq2).1,
          List.mem_cons_of_mem _ (hmem q hq2).2⟩
    · rw [List.map_cons]
      refine List.nodup_cons.2 ⟨?_, hnp⟩
      intro hin
      obtain ⟨q, hq, hqe⟩ := List.mem_map.1 hin
      exact ha (hqe ▸ (hmem q hq).1)
    · rw [List.map_cons]
      refine List.nodup_cons.2 ⟨?_, hnn⟩
      intro hin
      obtain ⟨q, hq, hqe⟩ := List.mem_map.1 hin
      exact hb (hqe ▸ (hmem q hq).2)

/-- The greedy fold preserves the pairing invariant. -/
theorem greedy_fold_inv :
    ∀ (l : List TransferPair) (st : GreedyState), GreedyInv st →
      GreedyInv (l.foldl greedy_step st) := by
  intro l
  induction l with
  | nil => intro st h; exact h
  | cons pr t ih =>
    intro st h
    exact ih (greedy_step st pr) (greedy_step_inv st pr h)

/-- C7: the greedy resolution consumes each row at most once (the selected
positive indices are pairwise distinct and so are the negative ones), and
the three-transfer scenario with one positive and two negative candidates
of equal amount removes exactly one pair, keeping the other negative row. -/
theorem selected_pairs_each_row_once :
    (∀ (tol : Int) (rows : List NormRow),
       ((selected_pairs tol rows).map (fun pr => pr.1.1)).Nodup ∧
       ((selected_pairs tol rows).map (fun pr => pr.2.1)).Nodup) ∧
    remove_internal_transfers [exPos, exNeg0, exNeg2] 2 = [exNeg2] := by
  refine ⟨?_, by decide⟩
  intro tol rows
  have h := greedy_fold_inv
    (sortPairsBy pair_date_diff (transfers_candidate_pairs tol rows)) ([], [], [])
    ⟨fun q hq => absurd hq (List.not_mem_nil q), List.nodup_nil, List.nodup_nil⟩
  unfold selected_pairs
  exact ⟨h.2.1, h.2.2⟩

/-- find? returns the element at the first index whose test is true. -/
theorem find_eq_of_first {α : Type} (p : α → Bool) :
    ∀ (l : List α) (i : Nat) (h : i < l.length),
      p (l.get ⟨i, h⟩) = true →
      (∀ j, (hj : j < i) → p (l.get ⟨j, Nat.lt_trans hj h⟩) = false) →
      l.find? p = some (l.get ⟨i, h⟩) := by
  intro l
  induction l with
  | nil => intro i h; exact absurd h (Nat.not_lt_zero i)
  | cons a t ih =>
    intro i h hp hj
    cases i with
    | zero =>
      exact List.find?_cons_of_pos _ hp
    | succ i =>
      have hpa : p a = false := hj 0 (Nat.succ_pos i)
      rw [List.find?_cons_of_neg _ (by rw [hpa]; simp)]
      exact ih i (Nat.lt_of_succ_lt_succ h) hp
        (fun j hjlt => hj (j + 1) (Nat.succ_lt_succ hjlt))

/-- C8: deterministic_lookup returns the mapping of the first keyword of
the insertion-ordered table occurring in the description; in particular a
description containing both rent (position 6) and transfer (position 20)
and no earlier keyword resolves to the rent mapping (Housing, Rent). -/
theorem deterministic_lookup_first_keyword :
    (∀ (d : String) (i : Nat) (h : i < DETERMINISTIC_KEYWORDS.length),
       containsSub d (DETERMINISTIC_KEYWORDS.get ⟨i, h⟩).1 = true →
       (∀ j, (hj : j < i) →
         containsSub d (DETERMINISTIC_KEYWORDS.get ⟨j, Nat.lt_trans hj h⟩).1 = false) →
       deterministic_lookup d =
         some ((DETERMINISTIC_KEYWORDS.get ⟨i, h⟩).2.1,
               (DETERMINISTIC_KEYWORDS.get ⟨i, h⟩).2.2)) ∧
    DETERMINISTIC_KEYWORDS.getD 6 ("", "", "") = ("rent", "Housing", "Rent") ∧
    DETERMINISTIC_KEYWORDS.getD 20 ("", "", "") =
      ("transfer", "Transfers", "Internal Transfer") ∧
    containsSub "monthly rent transfer" "rent" = true ∧
    containsSub "monthly rent transfer" "transfer" = true ∧
    deterministic_lookup "monthly rent transfer" = some ("Housing", "Rent") := by
  refine ⟨?_, by decide, by decide, by decide, by decide, by decide⟩
  intro d i h hp hj
  unfold deterministic_lookup
  rw [find_eq_of_first (fun kv => containsSub d kv.1) DETERMINISTIC_KEYWORDS i h hp hj]
  rfl

/-- C8 witness: the first-match rule applied at the rent position for a
description containing both the rent and the transfer keyword. -/
theorem deterministic_lookup_first_keyword_witness :
    deterministic_lookup "monthly rent transfer" = some ("Housing", "Rent") := by
  have h := deterministic_lookup_first_keyword.1 "monthly rent transfer" 6
    (by decide) (by decide) (by decide)
  exact h.trans (by decide)

/-- C1: classify_transactions keeps one output row per input row, each
output row is the classification of its input row (so category and
sub_category are always assigned together from one mapping and are never
missing, as the non-optional fields of ClassifiedRow record), and a row
resolved by no keyword, fuzzy or remote strategy gets exactly the default
mapping: (Income, General) when its class is Earnings, (Others, Others)
otherwise. -/
theorem classify_transactions_fallback :
    ∀ (useApi : Bool) (api : String → Option (String × String)) (rows : List CRow),
      (classify_transactions useApi api rows).length = rows.length ∧
      (∀ ro ∈ classify_transactions useApi api rows,
        ∃ r, r ∈ rows ∧ ro = classify_row useApi api r) ∧
      (∀ r ∈ rows,
        classify_row useApi api r ∈ classify_transactions useApi api rows ∧
        (deterministic_lookup (normalize r.description) = none →
         fuzzy_lookup (normalize r.description) = none →
         (useApi = true → api (normalize r.description) = none) →
         ((classify_row useApi api r).category,
          (classify_row useApi api r).sub_category) =
           DEFAULT_MAPPING (effective_class r))) := by
  intro useApi api rows
  refine ⟨List.length_map rows _, ?_, ?_⟩
  · intro ro hro
    obtain ⟨r, hr, hre⟩ := List.mem_map.1 hro
    exact ⟨r, hr, hre.symm⟩
  · intro r hr
    refine ⟨List.mem_map_of_mem _ hr, ?_⟩
    intro h0 h1 h2
    have h2b : (if useApi then api (normalize r.description) else none) = none := by
      cases useApi with
      | false => rfl
      | true => rw [if_pos rfl]; exact h2 rfl
    simp only [classify_row, h0, h1, h2b]

set_option maxRecDepth 100000 in
/-- C1 witness: the concrete row no strategy resolves falls to the
Expenses default (Others, Others). -/
theorem classify_transactions_fallback_witness :
    ((classify_row false (fun _ => none) c1row).category,
     (classify_row false (fun _ => none) c1row).sub_category) = ("Others", "Others") := by
  have h := ((classify_transactions_fallback false (fun _ => none) [c1row]).2.2 c1row
    (List.mem_singleton.2 rfl)).2 (by decide) (by decide)
    (fun hf => absurd hf (by decide))
  exact h.trans (by decide)

/-- C9: the enrichment call yields no answer (never an error value) on
missing configuration, transport failure, an HTTP status of 400 or above,
or an unparseable body; a well-formed response carrying only a category
is completed with sub_category Others; and a row whose local strategies
and enrichment call all yield none falls to the class default. -/
theorem enrichment_error_handling :
    (∀ (url key : Option String) (tr : String → ApiOutcome) (d : String),
       truthyOpt url = false ∨ truthyOpt key = false →
       _call_enrichment_api url key tr d = none) ∧
    (∀ (url key : Option String) (tr : String → ApiOutcome) (d : String),
       tr d = ApiOutcome.failure → _call_enrichment_api url key tr d = none) ∧
    (∀ (url key : Option String) (tr : String → ApiOutcome) (d : String)
       (status : Nat) (body : ApiBody),
       tr d = ApiOutcome.response status body → 400 ≤ status →
       _call_enrichment_api url key tr d = none) ∧
    (∀ (url key : Option String) (tr : String → ApiOutcome) (d : String)
       (status : Nat),
       tr d = ApiOutcome.response status ApiBody.unparseable →
       _call_enrichment_api url key tr d = none) ∧
    (∀ (url key : Option String) (tr : String → ApiOutcome) (d : String)
       (status : Nat) (c : String),
       tr d = ApiOutcome.response status (ApiBody.object (some c) none) →
       status < 400 → c ≠ "" → truthyOpt url = true → truthyOpt key = true →
       _call_enrichment_api url key tr d = some (c, "Others")) ∧
    (∀ (useApi : Bool) (url key : Option String) (tr : String → ApiOutcome)
       (r : CRow),
       deterministic_lookup (normalize r.description) = none →
       fuzzy_lookup (normalize r.description) = none →
       _call_enrichment_api url key tr (normalize r.description) = none →
       ((classify_row useApi (_call_enrichment_api url key tr) r).category,
        (classify_row useApi (_call_enrichment_api url key tr) r).sub_category) =
         DEFAULT_MAPPING (effective_class r)) := by
  refine ⟨?_, ?_, ?_, ?_, ?_, ?_⟩
  · intro url key tr d h
    unfold _call_enrichment_api
    rcases h with h | h
    · rw [h]
      rfl
    · rw [h, if_pos (by simp)]
  · intro url key tr d h
    unfold _call_enrichment_api
    rw [h]
    by_cases hc : (!(truthyOpt url) || !(truthyOpt key)) = true
    · rw [if_pos hc]
    · rw [if_neg hc]
  · intro url key tr d status body h hs
    unfold _call_enrichment_api
    by_cases hc : (!(truthyOpt url) || !(truthyOpt key)) = true
    · rw [if_pos hc]
    · rw [if_neg hc]
      simp only [h]
      rw [if_pos hs]
  · intro url key tr d status h
    unfold _call_enrichment_api
    by_cases hc : (!(truthyOpt url) || !(truthyOpt key)) = true
    · rw [if_pos hc]
    · rw [if_neg hc]
      simp only [h]
      by_cases hs : 400 ≤ status
      · rw [if_pos hs]
      · rw [if_neg hs]
  · intro url key tr d status c h hs hc hu hk
    unfold _call_enrichment_api
    rw [hu, hk]
    simp only [Bool.not_true, Bool.or_self, Bool.false_eq_true, if_false, h]
    rw [if_neg (Nat.not_le.2 hs), if_neg (by simpa using hc)]
  · intro useApi url key tr r h0 h1 h2
    have h2b : (if useApi
        then _call_enrichment_api url key tr (normalize r.description)
        else none) = none := by
      cases useApi with
      | false => rfl
      | true => rw [if_pos rfl]; exact h2
    simp only [classify_row, h0, h1, h2b]

/-- C9 witness: concrete failure modes all yield none and a category-only
response is completed with Others. -/
theorem enrichment_error_handling_witness :
    _call_enrichment_api (some "u") (some "k") (fun _ => ApiOutcome.failure) "x" = none ∧
    _call_enrichment_api (some "u") (some "k")
      (fun _ => ApiOutcome.response 500 (ApiBody.object (some "A") (some "B"))) "x" = none ∧
    _call_enrichment_api (some "u") (some "k")
      (fun _ => ApiOutcome.response 200 ApiBody.unparseable) "x" = none ∧
    _call_enrichment_api none (some "k")
      (fun _ => ApiOutcome.response 200 (ApiBody.object (some "A") (some "B"))) "x" = none ∧
    _call_enrichment_api (some "u") (some "k")
      (fun _ => ApiOutcome.response 200 (ApiBody.object (some "Travel") none)) "x" =
      some ("Travel", "Others") :=
  ⟨enrichment_error_handling.2.1 (some "u") (some "k") _ "x" rfl,
   enrichment_error_handling.2.2.1 (some "u") (some "k") _ "x" 500
     (ApiBody.object (some "A") (some "B")) rfl (by decide),
   enrichment_error_handling.2.2.2.1 (some "u") (some "k") _ "x" 200 rfl,
   enrichment_error_handling.1 none (some "k") _ "x" (Or.inl rfl),
   enrichment_error_handling.2.2.2.2.1 (some "u") (some "k") _ "x" 200 "Travel"
     rfl (by decide) (by decide) rfl rfl⟩

/-- Membership is preserved by the stable insertion. -/
theorem mem_insortRow {a x : NormRow} :
    ∀ {l : List NormRow}, a ∈ insortRow x l ↔ a = x ∨ a ∈ l := by
  intro l
  induction l with
  | nil => simp [insortRow]
  | cons y t ih =>
    unfold insortRow
    by_cases hc : x.date ≤ y.date
    · rw [if_pos hc]
      simp [List.mem_cons]
    · rw [if_neg hc]
      simp only [List.mem_cons, ih]
      tauto

/-- Membership is preserved by the date sort. -/
theorem mem_sortRowsByDate {a : NormRow} :
    ∀ {l : List NormRow}, a ∈ sortRowsByDate l ↔ a ∈ l := by
  intro l
  induction l with
  | nil => simp [sortRowsByDate]
  | cons x t ih =>
    unfold sortRowsByDate
    rw [mem_insortRow]
    simp only [List.mem_cons, ih]

/-- C10: every row of a successfully normalized table carries the same
account_name, namely the inferred account of the file: the first
non-missing cell of the detected account column (stripped and
lower-cased) when non-empty, else the file-name heuristic, else chequing
-- regardless of what the account column holds on other rows. -/
theorem read_scotiabank_csv_account_uniform :
    ∀ (parse_date : String → Option Int) (table : CsvTable)
      (file_name : Option String) (t : List NormRow),
      read_scotiabank_csv parse_date table file_name = Except.ok t →
      (∀ r ∈ t, r.account_name = infer_account_name file_name (account_series table)) ∧
      (∀ r ∈ t, ∀ r2 ∈ t, r.account_name = r2.account_name) := by
  intro pdate table fn t hok
  have hmain : ∀ r ∈ t, r.account_name = infer_account_name fn (account_series table) := by
    intro r hr
    cases hd : _find_first_match (table_columns table) DATE_CANDIDATES with
    | none =>
      simp only [read_scotiabank_csv, hd] at hok
      exact absurd hok (by simp)
    | some dc =>
      cases hx : _find_first_match (table_columns table) DESCRIPTION_CANDIDATES with
      | none =>
        simp only [read_scotiabank_csv, hd, hx] at hok
        exact absurd hok (by simp)
      | some xc =>
        simp only [read_scotiabank_csv, hd, hx] at hok
        split at hok
        · simp at hok
        · simp only [Except.ok.injEq] at hok
          rw [← hok] at hr
          obtain ⟨row, _, hf⟩ := List.mem_filterMap.1 (mem_sortRowsByDate.1 hr)
          cases hda : (getCell (table_columns table) dc row).bind pdate with
          | none => rw [hda] at hf; simp at hf
          | some d =>
            cases hra : row_amount (table_columns table)
                (_find_first_match (table_columns table) AMOUNT_CANDIDATES)
                (_find_first_match (table_columns table) DEBIT_CANDIDATES)
                (_find_first_match (table_columns table) CREDIT_CANDIDATES) row with
            | none => rw [hda, hra] at hf; simp at hf
            | some a =>
              rw [hda, hra] at hf
              obtain rfl := Option.some.inj hf
              rfl
  exact ⟨hmain, fun r hr r2 hr2 => (hmain r hr).trans (hmain r2 hr2).symm⟩

/-- C10 witness: a file whose account column holds Chequing on one row and
Savings on another still normalizes with the single account name chequing
on every row. -/
theorem read_scotiabank_csv_account_uniform_witness :
    read_scotiabank_csv pd0 c10table none = Except.ok [r10a, r10b] ∧
    r10a.account_name = "chequing" ∧ r10b.account_name = "chequing" := by
  have hok : read_scotiabank_csv pd0 c10table none = Except.ok [r10a, r10b] := rfl
  have h := (read_scotiabank_csv_account_uniform pd0 c10table none [r10a, r10b] hok).1
  exact ⟨hok, (h r10a (by simp)).trans (by decide), (h r10b (by simp)).trans (by decide)⟩

/-- C4 counterexample: a parsed header with a date, a description and a
debit column but neither an amount column nor a credit column (so no
debit/credit pair) is accepted without a schema error. -/
theorem read_scotiabank_csv_lone_debit_no_error :
    read_scotiabank_csv pdNone c4table none = Except.ok [] ∧
    _find_first_match (table_columns c4table) AMOUNT_CANDIDATES = none ∧
    _find_first_match (table_columns c4table) CREDIT_CANDIDATES = none ∧
    _find_first_match (table_columns c4table) DEBIT_CANDIDATES = some "debit" :=
  ⟨rfl, by decide, by decide, by decide⟩

/-- C4 amended: read_scotiabank_csv fails with a schema error exactly when
the parsed header has no date column or no description column, or has
neither an amount column nor at least one of a debit or credit column; on
such failures no table is produced and otherwise no schema error is
raised. -/
theorem read_scotiabank_csv_error_iff :
    ∀ (parse_date : String → Option Int) (table : CsvTable)
      (file_name : Option String),
      (∃ e, read_scotiabank_csv parse_date table file_name = Except.error e) ↔
        (_find_first_match (table_columns table) DATE_CANDIDATES = none ∨
         _find_first_match (table_columns table) DESCRIPTION_CANDIDATES = none ∨
         (_find_first_match (table_columns table) AMOUNT_CANDIDATES = none ∧
          _find_first_match (table_columns table) DEBIT_CANDIDATES = none ∧
          _find_first_match (table_columns table) CREDIT_CANDIDATES = none)) := by
  intro pdate table fn
  cases hd : _find_first_match (table_columns table) DATE_CANDIDATES with
  | none =>
    simp only [read_scotiabank_csv, hd]
    exact ⟨fun _ => Or.inl trivial, fun _ => ⟨_, rfl⟩⟩
  | some dc =>
    cases hx : _find_first_match (table_columns table) DESCRIPTION_CANDIDATES with
    | none =>
      simp only [read_scotiabank_csv, hd, hx]
      exact ⟨fun _ => Or.inr (Or.inl trivial), fun _ => ⟨_, rfl⟩⟩
    | some xc =>
      simp only [read_scotiabank_csv, hd, hx]
      by_cases hc : ((_find_first_match (table_columns table) AMOUNT_CANDIDATES).isNone &&
          (_find_first_match (table_columns table) DEBIT_CANDIDATES).isNone &&
          (_find_first_match (table_columns table) CREDIT_CANDIDATES).isNone) = true
      · rw [if_pos hc]
        rw [Bool.and_eq_true, Bool.and_eq_true] at hc
        refine ⟨fun _ => Or.inr (Or.inr ⟨?_, ?_, ?_⟩), fun _ => ⟨_, rfl⟩⟩
        · exact Option.isNone_iff_eq_none.1 hc.1.1
        · exact Option.isNone_iff_eq_none.1 hc.1.2
        · exact Option.isNone_iff_eq_none.1 hc.2
      · rw [if_neg hc]
        constructor
        · rintro ⟨e, he⟩
          exact absurd he (by simp)
        · rintro (h | h | ⟨h1, h2, h3⟩)
          · exact absurd h (by simp)
          · exact absurd h (by simp)
          · exact absurd (by rw [h1, h2, h3]; rfl) hc

end BankPipeline
